import Mathlib

/-!
Verification of the Animinder real-time chat / mutual-like engine.

Shallow embedding of the TypeScript services:
  - chatService (getChatId, sendMessage, markMessagesAsRead, getUserChats)
  - matchService (saveMatch, getUserMatchesRealtime snapshot merge)
  - likeService (checkMutualLike)
  - ChatDetailScreen (optimistic message merge, send rollback)

JavaScript strings are compared lexicographically by code unit; we embed
string comparison as lexicographic comparison of the code-point sequences
(`Char.toNat`), which agrees with the JavaScript order on all strings the
app manipulates.  JavaScript numbers holding millisecond timestamps and
unread counters are embedded as `Int`.  Firestore documents with possibly
missing fields are embedded with `Option` fields; the JS `x || d` and
`x ? f x : d` defaulting idioms become `Option.getD` style discriminations.
-/

/-- Lexicographic comparison of code-point lists (the order JavaScript
Array.prototype.sort uses on strings). -/
def lexBle : List Nat → List Nat → Bool
  | [], _ => true
  | _ :: _, [] => false
  | a :: as, b :: bs => if a < b then true else if b < a then false else lexBle as bs

/-- JavaScript string comparison `a <= b`, via code points. -/
def strLe (a b : String) : Bool :=
  lexBle (a.data.map Char.toNat) (b.data.map Char.toNat)

/-- Embedding of chatService.getChatId: `[userId1, userId2].sort().join('_')`.
For a two-element array, the default JS sort keeps the pair in place when
`userId1 <= userId2` and swaps it otherwise. -/
def getChatId (userId1 userId2 : String) : String :=
  if strLe userId1 userId2 then userId1 ++ "_" ++ userId2 else userId2 ++ "_" ++ userId1

/-- Modelled from the spec words only (for comparison with `getChatId`):
thread id is the two participant ids sorted lexicographically and joined
with an underscore. -/
def threadIdSpec (a b : String) : String :=
  let p := if strLe a b then (a, b) else (b, a)
  p.1 ++ "_" ++ p.2

/-- View-level chat message, as produced by getChatMessages and displayed by
ChatDetailScreen (timestamp is in epoch milliseconds, Date.getTime). -/
structure Message where
  id : String
  chatId : String
  senderId : String
  receiverId : String
  text : String
  timestamp : Int
  read : Bool
deriving DecidableEq, Repr

/-- Embedding of `msg.id.startsWith('temp-')`, the marker of an optimistic
(not yet confirmed) message created by handleSendMessage. -/
def isTempId (s : String) : Bool := "temp-".data.isPrefixOf s.data

/-- Match rule from the ChatDetailScreen subscription callback: a confirmed
message replaces a pending one when text and sender agree and the timestamps
are within 5 seconds. -/
def reconcilesWith (realMsg optMsg : Message) : Bool :=
  realMsg.text == optMsg.text && realMsg.senderId == optMsg.senderId &&
    decide ((realMsg.timestamp - optMsg.timestamp).natAbs < 5000)

/-- Pending optimistic messages kept from the previous view state. -/
def optimisticOf (l : List Message) : List Message :=
  l.filter (fun msg => isTempId msg.id)

/-- Confirmed messages from the Firestore snapshot. -/
def realOf (l : List Message) : List Message :=
  l.filter (fun msg => !isTempId msg.id)

/-- Ids of optimistic messages that have been replaced by a confirmed one. -/
def replacedOptimisticIds (prev newMessages : List Message) : List String :=
  ((optimisticOf prev).filter (fun optMsg =>
      (realOf newMessages).any (fun realMsg => reconcilesWith realMsg optMsg))).map
    (fun msg => msg.id)

instance : IsTrans Message (fun a b => a.timestamp ≤ b.timestamp) :=
  ⟨fun _ _ _ => le_trans⟩

instance : IsTotal Message (fun a b => a.timestamp ≤ b.timestamp) :=
  ⟨fun _ _ => le_total _ _⟩

/-- Optimistic messages that survive reconciliation (their id is not among
the replaced ids). -/
def remainingOptimisticOf (prev newMessages : List Message) : List Message :=
  (optimisticOf prev).filter
    (fun msg => !(replacedOptimisticIds prev newMessages).contains msg.id)

/-- Embedding of the getChatMessages callback inside ChatDetailScreen: merge
the confirmed snapshot with surviving optimistic messages and sort by
timestamp ascending (JS stable sort embedded as insertion sort). -/
def mergeMessages (prev newMessages : List Message) : List Message :=
  (realOf newMessages ++ remainingOptimisticOf prev newMessages).insertionSort
    (fun a b => a.timestamp ≤ b.timestamp)

/-- Local state of ChatDetailScreen relevant to sending: the displayed message
list and the text input field. -/
structure ScreenState where
  messages : List Message
  inputText : String
deriving DecidableEq, Repr

/-- Optimistic phase of handleSendMessage: the pending message is appended to
the view and the input field is cleared. -/
def handleSendStart (st : ScreenState) (optimisticMessage : Message) : ScreenState :=
  { messages := st.messages ++ [optimisticMessage], inputText := "" }

/-- Failure branch of handleSendMessage: the pending message is removed from
the view and the original input text is restored. -/
def handleSendFailure (st : ScreenState) (tempId messageText : String) : ScreenState :=
  { messages := st.messages.filter (fun msg => msg.id != tempId),
    inputText := messageText }

/-- Stored message document in the `chats/{chatId}/messages` subcollection.
The timestamp is `none` while the serverTimestamp sentinel is unresolved. -/
structure MessageDoc where
  id : String
  chatId : String
  senderId : String
  receiverId : String
  text : String
  timestamp : Option Int
  read : Bool
deriving DecidableEq, Repr

/-- Data of a chat document.  The two participant ids are always written by
createOrGetChat; lastMessage, lastMessageTime and the two unread counters may
be absent in a raw document (the code defaults them with `|| 0` and the
like), hence the `Option` fields. -/
structure ChatData where
  userId1 : String
  userId2 : String
  lastMessage : Option String
  lastMessageTime : Option Int
  unreadCount1 : Option Int
  unreadCount2 : Option Int
deriving DecidableEq, Repr

/-- State of one chat thread: the chat document (outer `none`: the document
does not exist; `some none`: the document exists but `data()` is null) and
the messages subcollection. -/
structure ChatState where
  chatDoc : Option (Option ChatData)
  messages : List MessageDoc
deriving DecidableEq, Repr

/-- Embedding of chatService.sendMessage.  The whole Firestore transaction is
one atomic state transition: it either returns the fully updated state or an
error and no state.  `newId` stands for the id Firestore generates with
`messagesRef.doc()` and `now` for the resolved serverTimestamp. -/
def sendMessage (chatId senderId receiverId text newId : String) (now : Int)
    (st : ChatState) : Except String ChatState :=
  match st.chatDoc with
  | none => .error "Chat does not exist"
  | some none => .error "Chat data is null"
  | some (some chatData) =>
    let msg : MessageDoc :=
      { id := newId
        chatId := chatId
        senderId := senderId
        receiverId := receiverId
        text := text
        timestamp := some now
        read := false }
    let isUser1 := chatData.userId1 == senderId
    let updated :=
      if isUser1 then
        { chatData with
          lastMessage := some text
          lastMessageTime := some now
          unreadCount2 := some (chatData.unreadCount2.getD 0 + 1) }
      else
        { chatData with
          lastMessage := some text
          lastMessageTime := some now
          unreadCount1 := some (chatData.unreadCount1.getD 0 + 1) }
    .ok { chatDoc := some (some updated), messages := st.messages ++ [msg] }

/-- Runner for sendMessage: a failed transaction leaves the state untouched. -/
def applySendMessage (chatId senderId receiverId text newId : String) (now : Int)
    (st : ChatState) : ChatState :=
  match sendMessage chatId senderId receiverId text newId now st with
  | .ok st2 => st2
  | .error _ => st

/-- Ids of the documents returned by the unread query
`where receiverId == userId, where read == false` inside markMessagesAsRead. -/
def unreadMessageIds (userId : String) (msgs : List MessageDoc) : List String :=
  (msgs.filter (fun m => m.receiverId == userId && m.read == false)).map
    (fun m => m.id)

/-- Embedding of chatService.markMessagesAsRead for one chat: flip `read` on
the queried unread messages addressed to `userId`, then reset that side of
the unread counter when the chat document has data. -/
def markMessagesAsRead (userId : String) (st : ChatState) : ChatState :=
  { chatDoc :=
      match st.chatDoc with
      | some (some chatData) =>
        some (some (if chatData.userId1 == userId then
          { chatData with unreadCount1 := some 0 }
        else
          { chatData with unreadCount2 := some 0 }))
      | other => other
    messages := st.messages.map
      (fun m => if (unreadMessageIds userId st.messages).contains m.id then
        { m with read := true }
      else m) }

/-- Unread counter belonging to participant `uid` of a chat (`unreadCount1`
for the side-1 participant, `unreadCount2` otherwise). -/
def unreadCountOf (chatData : ChatData) (uid : String) : Option Int :=
  if uid = chatData.userId1 then chatData.unreadCount1 else chatData.unreadCount2

/-- Animal record from the app type declarations. -/
structure Animal where
  id : String
  name : String
  type : String
  age : Int
  breed : String
  image : String
  bio : String
  ownerId : String
deriving DecidableEq, Repr

/-- Like edge document: likerUserId liked the animal likedAnimalId whose
owner is ownerId. -/
structure Like where
  id : String
  likerUserId : String
  likedAnimalId : String
  ownerId : String
  createdAt : Int
deriving DecidableEq, Repr

/-- Result value of checkMutualLike. -/
structure MutualLikeResult where
  isMatch : Bool
  matchedAnimalId : Option String
deriving DecidableEq, Repr

/-- Loop body of checkMutualLike over the owner likes: return at the first
like whose ownerId is the current user (profile-based match) or whose liked
animal id is among the current user animals (animal-id match). -/
def findMutual (likerUserId : String) (userAnimalIds : List String) :
    List Like → Option String
  | [] => none
  | likeData :: rest =>
    if likeData.ownerId == likerUserId then some likeData.likedAnimalId
    else if userAnimalIds.contains likeData.likedAnimalId then
      some likeData.likedAnimalId
    else findMutual likerUserId userAnimalIds rest

/-- Embedding of likeService.checkMutualLike: fetch all likes whose liker is
`ownerId` and scan them for a reciprocal like of one of the current user
animals; the catch-all error path of the source returns no match and is not
reachable in the pure embedding. -/
def checkMutualLike (likes : List Like) (likerUserId ownerId : String)
    (userAnimals : List Animal) : MutualLikeResult :=
  match findMutual likerUserId (userAnimals.map (fun a => a.id))
      (likes.filter (fun l => l.likerUserId == ownerId)) with
  | some aid => { isMatch := true, matchedAnimalId := some aid }
  | none => { isMatch := false, matchedAnimalId := none }

/-- Stored match document.  matchService.saveMatch writes through
`matchesCollection.add`, which generates a fresh document id; the id is
modeled by a counter. -/
structure MatchDoc where
  docId : Nat
  userId1 : String
  userId2 : String
  animal1Id : String
  animal1 : Option Animal
  animal2Id : String
  animal2 : Option Animal
  createdAt : Int
deriving DecidableEq, Repr

/-- The `matches` collection together with the generator of fresh auto ids. -/
structure MatchesCollection where
  docs : List MatchDoc
  nextId : Nat
deriving DecidableEq, Repr

/-- Embedding of matchService.saveMatch: `matchesCollection.add({...})`
appends a new document under a fresh auto-generated id, unconditionally. -/
def saveMatch (c : MatchesCollection) (userId1 userId2 animal1Id : String)
    (animal1 : Option Animal) (animal2Id : String) (animal2 : Option Animal)
    (now : Int) : MatchesCollection :=
  { docs := c.docs ++
      [⟨c.nextId, userId1, userId2, animal1Id, animal1, animal2Id, animal2, now⟩]
    nextId := c.nextId + 1 }

/-- Match documents stored for the unordered profile pair (u, o). -/
def matchesForPair (c : MatchesCollection) (u o : String) : List MatchDoc :=
  c.docs.filter (fun m => (m.userId1 == u && m.userId2 == o) ||
    (m.userId1 == o && m.userId2 == u))

/-- The empty `matches` collection. -/
def emptyMatches : MatchesCollection := { docs := [], nextId := 0 }

/-- User record from the app type declarations. -/
structure User where
  id : String
  name : String
  email : String
  photoURL : Option String
  phone : Option String
  createdAt : Option Int
deriving DecidableEq, Repr

/-- Raw chat document of the `chats` collection: the document id together
with its data. -/
structure ChatDocRecord where
  id : String
  data : ChatData
deriving DecidableEq, Repr

/-- Chat entry as delivered by getUserChats to its callback. -/
structure ChatView where
  id : String
  userId1 : String
  userId2 : String
  lastMessage : Option String
  lastMessageTime : Option Int
  unreadCount1 : Int
  unreadCount2 : Int
  user1Data : Option User
  user2Data : Option User
deriving DecidableEq, Repr

/-- Conversion of a chat document into the delivered Chat record, as done in
the two query loops of getUserChats; `lastMessage || undefined` turns an
empty string into an absent value, `unreadCountN || 0` defaults a missing
counter to zero. -/
def toChatView (doc : ChatDocRecord) : ChatView :=
  { id := doc.id
    userId1 := doc.data.userId1
    userId2 := doc.data.userId2
    lastMessage := doc.data.lastMessage.bind
      (fun s => if s == "" then none else some s)
    lastMessageTime := doc.data.lastMessageTime
    unreadCount1 := doc.data.unreadCount1.getD 0
    unreadCount2 := doc.data.unreadCount2.getD 0
    user1Data := none
    user2Data := none }

/-- One step of building a JavaScript `Map` from key-value pairs: an existing
key keeps its position but takes the new value, a new key is appended. -/
def jsMapUpsert {α : Type} (m : List (String × α)) (k : String) (v : α) :
    List (String × α) :=
  if m.any (fun p => p.1 == k) then
    m.map (fun p => if p.1 == k then (k, v) else p)
  else m ++ [(k, v)]

/-- JavaScript `new Map(pairs)`: fold the pairs left to right. -/
def jsMapOfList {α : Type} (l : List (String × α)) : List (String × α) :=
  l.foldl (fun m p => jsMapUpsert m p.1 p.2) []

/-- Per-chat enrichment step of getUserChats: fetch the other participant
document and attach it on the side that is not the current user. -/
def attachOtherUserData (userId : String) (users : String → Option User)
    (chat : ChatView) : ChatView :=
  let otherUserId := if chat.userId1 == userId then chat.userId2 else chat.userId1
  let userData := users otherUserId
  { chat with
    user1Data := if chat.userId1 == userId then none else userData
    user2Data := if chat.userId2 == userId then none else userData }

/-- Sort key of the final chat list: `lastMessageTime?.getTime() || 0`. -/
def chatSortKey (c : ChatView) : Int := c.lastMessageTime.getD 0

instance : IsTrans ChatView (fun a b => chatSortKey b ≤ chatSortKey a) :=
  ⟨fun _ _ _ h1 h2 => le_trans h2 h1⟩

instance : IsTotal ChatView (fun a b => chatSortKey b ≤ chatSortKey a) :=
  ⟨fun _ _ => (le_total _ _).symm⟩

/-- Embedding of the processChats body of getUserChats: run the two
role-keyed queries, concatenate, deduplicate by document id through a
JavaScript Map, attach the other-participant user data and sort by last
message time, newest first. -/
def getUserChatsList (userId : String) (chats : List ChatDocRecord)
    (users : String → Option User) : List ChatView :=
  (((jsMapOfList
      (((chats.filter (fun c => c.data.userId1 == userId)).map toChatView ++
        (chats.filter (fun c => c.data.userId2 == userId)).map toChatView).map
        (fun chat => (chat.id, chat)))).map Prod.snd).map
    (attachOtherUserData userId users)).insertionSort
    (fun a b => chatSortKey b ≤ chatSortKey a)

/-- Which of the two role-keyed subscriptions of getUserMatchesRealtime
delivered an event (the `queryName` strings `userId1` / `userId2`). -/
inductive QueryRole where
  | userId1
  | userId2
deriving DecidableEq, Repr

/-- The other role. -/
def otherRole : QueryRole → QueryRole
  | .userId1 => .userId2
  | .userId2 => .userId1

/-- Raw data of a match document as it arrives from the stream; every field
except the document id may be absent. -/
structure MatchDocData where
  id : String
  userId1 : Option String
  userId2 : Option String
  animal1Id : Option String
  animal1 : Option Animal
  animal2Id : Option String
  animal2 : Option Animal
  createdAt : Option Int
deriving DecidableEq, Repr

/-- Match record as built by getUserMatchesRealtime from a document
(`data.userId1 || ''` and friends; `createdAt ? toDate : new Date()` is
embedded with `now` standing for the wall clock). -/
structure MatchView where
  id : String
  userId1 : String
  userId2 : String
  animal1Id : String
  animal1 : Option Animal
  animal2Id : String
  animal2 : Option Animal
  timestamp : Int
deriving DecidableEq, Repr

/-- Conversion of raw document data to the Match record of the map. -/
def toMatchView (now : Int) (d : MatchDocData) : MatchView :=
  { id := d.id
    userId1 := d.userId1.getD ""
    userId2 := d.userId2.getD ""
    animal1Id := d.animal1Id.getD ""
    animal1 := d.animal1
    animal2Id := d.animal2Id.getD ""
    animal2 := d.animal2
    timestamp := d.createdAt.getD now }

/-- One entry of `snapshot.docChanges()`: the code only distinguishes
`removed` from the other change kinds. -/
structure DocChange where
  removed : Bool
  doc : MatchDocData
deriving DecidableEq, Repr

/-- One delivery from one of the two subscriptions: the full document list
(`snapshot.forEach`) and the incremental changes (`snapshot.docChanges()`). -/
structure SnapshotEvent where
  role : QueryRole
  docs : List MatchDocData
  changes : List DocChange
deriving DecidableEq, Repr

/-- State owned by getUserMatchesRealtime: the id-keyed matches map (a
JavaScript Map, embedded as an insertion-ordered association list) and the
two first-load flags. -/
structure MergeState where
  matchesMap : List (String × MatchView)
  isFirstLoad1 : Bool
  isFirstLoad2 : Bool
deriving DecidableEq, Repr

/-- JavaScript `Map.delete`. -/
def jsMapDelete {α : Type} (m : List (String × α)) (k : String) :
    List (String × α) :=
  m.filter (fun p => p.1 != k)

/-- JavaScript `Map.get` (as an Option). -/
def mapGet {α : Type} (m : List (String × α)) (k : String) : Option α :=
  (m.find? (fun p => p.1 == k)).map Prod.snd

/-- The field of the Match record that the given subscription filters on. -/
def roleFieldView : QueryRole → MatchView → String
  | .userId1, v => v.userId1
  | .userId2, v => v.userId2

/-- First-load flag belonging to a role. -/
def isFirstLoadOf (s : MergeState) : QueryRole → Bool
  | .userId1 => s.isFirstLoad1
  | .userId2 => s.isFirstLoad2

/-- Apply one document change from the non-first-load branch: `removed`
deletes by id, anything else upserts the converted record. -/
def applyChange (now : Int) (m : List (String × MatchView)) (c : DocChange) :
    List (String × MatchView) :=
  if c.removed then jsMapDelete m c.doc.id
  else jsMapUpsert m c.doc.id (toMatchView now c.doc)

/-- Fold of a whole docChanges list. -/
def applyChanges (now : Int) (m : List (String × MatchView))
    (changes : List DocChange) : List (String × MatchView) :=
  changes.foldl (applyChange now) m

/-- Upsert every document of a full snapshot into the map. -/
def applySnapshotDocs (now : Int) (m : List (String × MatchView))
    (docs : List MatchDocData) : List (String × MatchView) :=
  docs.foldl (fun m d => jsMapUpsert m d.id (toMatchView now d)) m

/-- Embedding of handleSnapshot of getUserMatchesRealtime (and of the
`isFirstLoadN = false` assignments in the subscription callbacks): on the
first load of a role, upsert all snapshot documents and drop the stale
entries of that role that the snapshot no longer contains; on a later
delivery, apply the incremental changes. -/
def handleSnapshot (userId : String) (now : Int) (s : MergeState)
    (e : SnapshotEvent) : MergeState :=
  let newMap :=
    if isFirstLoadOf s e.role then
      (applySnapshotDocs now s.matchesMap e.docs).filter
        (fun p => !(roleFieldView e.role p.2 == userId &&
          !(e.docs.map MatchDocData.id).contains p.1))
    else
      applyChanges now s.matchesMap e.changes
  match e.role with
  | .userId1 => { matchesMap := newMap
                  isFirstLoad1 := false
                  isFirstLoad2 := s.isFirstLoad2 }
  | .userId2 => { matchesMap := newMap
                  isFirstLoad1 := s.isFirstLoad1
                  isFirstLoad2 := false }

/-- Replay of a sequence of stream events through handleSnapshot. -/
def replayEvents (userId : String) (now : Int) (s : MergeState)
    (evs : List SnapshotEvent) : MergeState :=
  evs.foldl (handleSnapshot userId now) s

/-- State before any delivery: empty map, both first-load flags set. -/
def initialMergeState : MergeState :=
  { matchesMap := [], isFirstLoad1 := true, isFirstLoad2 := true }

/-- Well-formed payload document for a role-keyed subscription: the document
satisfies the equality predicate of its own subscription and not the other
one (a match stores the local profile on exactly one side). -/
def wfDoc (userId : String) (now : Int) (r : QueryRole) (d : MatchDocData) :
    Prop :=
  roleFieldView r (toMatchView now d) = userId ∧
  roleFieldView (otherRole r) (toMatchView now d) ≠ userId

/-- Well-formed event: every document of the payload is well formed. -/
def wfEvent (userId : String) (now : Int) (e : SnapshotEvent) : Prop :=
  (∀ d ∈ e.docs, wfDoc userId now e.role d) ∧
  (∀ c ∈ e.changes, wfDoc userId now e.role c.doc)

/-- First event delivered by the subscription of a role. -/
def firstEventOf (r : QueryRole) (evs : List SnapshotEvent) :
    Option SnapshotEvent :=
  evs.find? (fun e => e.role == r)

/-- Firestore first-snapshot consistency: the docChanges of a first snapshot
are exactly its documents, all reported as added. -/
def alignedEvent (e : SnapshotEvent) : Prop :=
  e.changes = e.docs.map (fun d => { removed := false, doc := d })

/-- Per-id effect of one document change. -/
def changeStep (now : Int) (id : String) (c : DocChange)
    (cur : Option MatchView) : Option MatchView :=
  if c.doc.id = id then
    (if c.removed then none else some (toMatchView now c.doc))
  else cur

/-- Per-id effect of a docChanges list. -/
def changesGet (now : Int) (id : String) (chs : List DocChange)
    (cur : Option MatchView) : Option MatchView :=
  chs.foldl (fun acc c => changeStep now id c acc) cur

/-- Does a docChanges list mention the id at all. -/
def touchedByChanges (id : String) (chs : List DocChange) : Bool :=
  chs.any (fun c => c.doc.id == id)

/-- Does any event of the sequence mention the id in its changes. -/
def touchedByEvents (id : String) (evs : List SnapshotEvent) : Bool :=
  evs.any (fun e => touchedByChanges id e.changes)

/-- Invariant of the merge state: while a role has not yet received its
first snapshot, no stored entry satisfies that role predicate. -/
def mergeInv (userId : String) (s : MergeState) : Prop :=
  ∀ r : QueryRole, isFirstLoadOf s r = true →
    ∀ p ∈ s.matchesMap, roleFieldView r p.2 ≠ userId

/-- Sample first snapshot of the side-1 subscription for profile U. -/
def sampleEvent1 : SnapshotEvent :=
  { role := .userId1
    docs := [⟨"m1", some "U", some "B", none, none, none, none, some 5⟩]
    changes := [⟨false, ⟨"m1", some "U", some "B", none, none, none, none, some 5⟩⟩] }

/-- Sample first snapshot of the side-2 subscription for profile U. -/
def sampleEvent2 : SnapshotEvent :=
  { role := .userId2
    docs := [⟨"m2", some "C", some "U", none, none, none, none, some 7⟩]
    changes := [⟨false, ⟨"m2", some "C", some "U", none, none, none, none, some 7⟩⟩] }

theorem lexBle_total (xs ys : List Nat) : lexBle xs ys = true ∨ lexBle ys xs = true := by
  induction xs generalizing ys with
  | nil => left; rfl
  | cons a as ih =>
    cases ys with
    | nil => right; rfl
    | cons b bs =>
      rcases lt_trichotomy a b with h | h | h
      · left; simp [lexBle, h]
      · subst h
        rcases ih bs with h2 | h2
        · left; simp [lexBle, h2]
        · right; simp [lexBle, h2]
      · right; simp [lexBle, h, not_lt.mpr (le_of_lt h)]

theorem lexBle_antisymm {xs ys : List Nat} (h1 : lexBle xs ys = true)
    (h2 : lexBle ys xs = true) : xs = ys := by
  induction xs generalizing ys with
  | nil =>
    cases ys with
    | nil => rfl
    | cons b bs => simp [lexBle] at h2
  | cons a as ih =>
    cases ys with
    | nil => simp [lexBle] at h1
    | cons b bs =>
      rcases lt_trichotomy a b with h | h | h
      · simp [lexBle, h, not_lt.mpr (le_of_lt h)] at h2
      · subst h
        simp only [lexBle, lt_irrefl, if_false] at h1 h2
        exact congrArg (a :: ·) (ih h1 h2)
      · simp [lexBle, h, not_lt.mpr (le_of_lt h)] at h1

theorem char_toNat_injective : Function.Injective Char.toNat := by
  intro c1 c2 h
  exact Char.ext (UInt32.ext h)

theorem strLe_total (a b : String) : strLe a b = true ∨ strLe b a = true :=
  lexBle_total _ _

theorem strLe_antisymm {a b : String} (h1 : strLe a b = true) (h2 : strLe b a = true) :
    a = b := by
  have hdata : a.data.map Char.toNat = b.data.map Char.toNat := lexBle_antisymm h1 h2
  have : a.data = b.data :=
    List.map_injective_iff.mpr char_toNat_injective hdata
  cases a; cases b; exact congrArg String.mk this

/-- C2: the chat thread id is symmetric in the two profile ids, and it is
exactly the two ids sorted lexicographically and joined with an underscore. -/
theorem getChatId_symm_and_sorted :
    (∀ a b : String, getChatId a b = getChatId b a) ∧
    (∀ a b : String, getChatId a b = threadIdSpec a b) := by
  constructor
  · intro a b
    unfold getChatId
    rcases strLe_total a b with h | h
    · by_cases h2 : strLe b a = true
      · have : a = b := strLe_antisymm h h2
        subst this; rfl
      · simp [h, h2]
    · by_cases h2 : strLe a b = true
      · have : a = b := strLe_antisymm h2 h
        subst this; rfl
      · simp [h, h2]
  · intro a b
    unfold getChatId threadIdSpec
    by_cases h : strLe a b = true <;> simp [h]

theorem mem_optimisticOf {l : List Message} {m : Message} :
    m ∈ optimisticOf l ↔ m ∈ l ∧ isTempId m.id = true := by
  simp [optimisticOf, List.mem_filter]

theorem mem_realOf {l : List Message} {m : Message} :
    m ∈ realOf l ↔ m ∈ l ∧ isTempId m.id = false := by
  simp [realOf, List.mem_filter]

theorem mem_replacedOptimisticIds {prev newMessages : List Message} {m : Message}
    (hids : (prev.map Message.id).Nodup) (hm : m ∈ prev) :
    m.id ∈ replacedOptimisticIds prev newMessages ↔
      (isTempId m.id = true ∧
        ∃ r ∈ realOf newMessages, reconcilesWith r m = true) := by
  constructor
  · intro h
    rcases List.mem_map.mp h with ⟨m', hm'f, hid⟩
    rcases List.mem_filter.mp hm'f with ⟨hm'opt, hany⟩
    rcases mem_optimisticOf.mp hm'opt with ⟨hm'prev, hm'tmp⟩
    have heq : m' = m := List.inj_on_of_nodup_map hids hm'prev hm hid
    subst heq
    rcases List.any_eq_true.mp hany with ⟨r, hr, hrec⟩
    exact ⟨hm'tmp, r, hr, hrec⟩
  · rintro ⟨htmp, r, hr, hrec⟩
    refine List.mem_map.mpr ⟨m, List.mem_filter.mpr ⟨mem_optimisticOf.mpr ⟨hm, htmp⟩, ?_⟩, rfl⟩
    exact List.any_eq_true.mpr ⟨r, hr, hrec⟩

theorem mem_remainingOptimisticOf {prev newMessages : List Message} {m : Message}
    (hids : (prev.map Message.id).Nodup) :
    m ∈ remainingOptimisticOf prev newMessages ↔
      (m ∈ prev ∧ isTempId m.id = true ∧
        ¬ ∃ r ∈ realOf newMessages, reconcilesWith r m = true) := by
  unfold remainingOptimisticOf
  rw [List.mem_filter]
  constructor
  · rintro ⟨hopt, hnc⟩
    rcases mem_optimisticOf.mp hopt with ⟨hprev, htmp⟩
    refine ⟨hprev, htmp, ?_⟩
    intro hex
    have hmem : m.id ∈ replacedOptimisticIds prev newMessages :=
      (mem_replacedOptimisticIds hids hprev).mpr ⟨htmp, hex⟩
    rw [Bool.not_eq_true', ← Bool.not_eq_true] at hnc
    exact hnc (List.elem_iff.mpr hmem)
  · rintro ⟨hprev, htmp, hno⟩
    refine ⟨mem_optimisticOf.mpr ⟨hprev, htmp⟩, ?_⟩
    rw [Bool.not_eq_true', ← Bool.not_eq_true]
    intro hc
    exact hno ((mem_replacedOptimisticIds hids hprev).mp (List.elem_iff.mp hc)).2

/-- C5: the reconciliation of a confirmed snapshot with pending optimistic
messages drops a pending message exactly when a confirmed message has the
same sender, the same text and a timestamp within 5 seconds, and delivers
the union of confirmed and surviving pending messages sorted ascending by
timestamp. -/
theorem mergeMessages_reconciliation (prev newMessages : List Message)
    (hids : (prev.map Message.id).Nodup) :
    List.Sorted (fun a b : Message => a.timestamp ≤ b.timestamp)
      (mergeMessages prev newMessages) ∧
    ∀ m : Message, m ∈ mergeMessages prev newMessages ↔
      ((m ∈ newMessages ∧ isTempId m.id = false) ∨
       (m ∈ prev ∧ isTempId m.id = true ∧
         ¬ ∃ r ∈ realOf newMessages, reconcilesWith r m = true)) := by
  constructor
  · exact List.sorted_insertionSort _ _
  · intro m
    unfold mergeMessages
    rw [(List.perm_insertionSort _ _).mem_iff, List.mem_append,
      mem_realOf, mem_remainingOptimisticOf hids]

/-- Witness for C5, scenario A: profile U1 sends "hi" optimistically at t=0,
the confirmation arrives at t=200ms; the merged list contains exactly the
single confirmed entry. -/
theorem mergeMessages_reconciliation_witness :
    (([⟨"temp-1", "c1", "U1", "U2", "hi", 0, false⟩] : List Message).map Message.id).Nodup ∧
    (List.Sorted (fun a b : Message => a.timestamp ≤ b.timestamp)
      (mergeMessages [⟨"temp-1", "c1", "U1", "U2", "hi", 0, false⟩]
        [⟨"m1", "c1", "U1", "U2", "hi", 200, false⟩]) ∧
    ∀ m : Message, m ∈ mergeMessages [⟨"temp-1", "c1", "U1", "U2", "hi", 0, false⟩]
        [⟨"m1", "c1", "U1", "U2", "hi", 200, false⟩] ↔
      ((m ∈ [(⟨"m1", "c1", "U1", "U2", "hi", 200, false⟩ : Message)] ∧ isTempId m.id = false) ∨
       (m ∈ [(⟨"temp-1", "c1", "U1", "U2", "hi", 0, false⟩ : Message)] ∧ isTempId m.id = true ∧
         ¬ ∃ r ∈ realOf [⟨"m1", "c1", "U1", "U2", "hi", 200, false⟩],
           reconcilesWith r m = true))) ∧
    mergeMessages [⟨"temp-1", "c1", "U1", "U2", "hi", 0, false⟩]
        [⟨"m1", "c1", "U1", "U2", "hi", 200, false⟩] =
      [⟨"m1", "c1", "U1", "U2", "hi", 200, false⟩] :=
  ⟨by decide, mergeMessages_reconciliation _ _ (by decide), by decide⟩

/-- C8: a failed send removes exactly the optimistic message it added and
restores the typed text, so the view again shows the state before the send
and no entry with the pending id remains. -/
theorem sendFailure_rolls_back (st : ScreenState) (optimisticMessage : Message)
    (messageText : String)
    (hfresh : optimisticMessage.id ∉ st.messages.map Message.id) :
    handleSendFailure (handleSendStart st optimisticMessage) optimisticMessage.id
        messageText =
      { messages := st.messages, inputText := messageText } ∧
    ∀ m ∈ (handleSendFailure (handleSendStart st optimisticMessage)
        optimisticMessage.id messageText).messages,
      m.id ≠ optimisticMessage.id := by
  have hne : ∀ m ∈ st.messages, m.id ≠ optimisticMessage.id := by
    intro m hm he
    exact hfresh (List.mem_map.mpr ⟨m, hm, he⟩)
  have hmsgs : (handleSendFailure (handleSendStart st optimisticMessage)
      optimisticMessage.id messageText).messages = st.messages := by
    unfold handleSendFailure handleSendStart
    simp only [List.filter_append]
    rw [List.filter_eq_self.mpr, show List.filter
        (fun msg => msg.id != optimisticMessage.id) [optimisticMessage] = [] by simp,
      List.append_nil]
    intro m hm
    simpa using hne m hm
  refine ⟨?_, ?_⟩
  · cases hst : handleSendFailure (handleSendStart st optimisticMessage)
      optimisticMessage.id messageText with
    | mk msgs inp =>
      have : msgs = st.messages := by rw [← hmsgs, hst]
      subst this
      simp [handleSendFailure] at hst
      simp [hst.2]
  · intro m hm
    rw [hmsgs] at hm
    exact hne m hm

/-- Witness for C8: a concrete failed send rolls the screen state back. -/
theorem sendFailure_rolls_back_witness :
    ((⟨"temp-9", "c1", "U1", "U2", "yo", 7, false⟩ : Message).id ∉
      (([⟨"m1", "c1", "U2", "U1", "prior", 1, true⟩] : List Message).map Message.id)) ∧
    (handleSendFailure
        (handleSendStart ⟨[⟨"m1", "c1", "U2", "U1", "prior", 1, true⟩], "yo"⟩
          ⟨"temp-9", "c1", "U1", "U2", "yo", 7, false⟩) "temp-9" "yo" =
      { messages := [⟨"m1", "c1", "U2", "U1", "prior", 1, true⟩], inputText := "yo" } ∧
    ∀ m ∈ (handleSendFailure
        (handleSendStart ⟨[⟨"m1", "c1", "U2", "U1", "prior", 1, true⟩], "yo"⟩
          ⟨"temp-9", "c1", "U1", "U2", "yo", 7, false⟩) "temp-9" "yo").messages,
      m.id ≠ "temp-9") :=
  ⟨by decide, sendFailure_rolls_back _ _ _ (by decide)⟩

/-- C3: on an existing chat, sendMessage atomically appends one unread
message, sets lastMessage and lastMessageTime, and increments exactly the
receiver-side unread counter from the value read in the same transaction;
any erroring run leaves the state untouched. -/
theorem sendMessage_atomic (chatId senderId receiverId text newId : String)
    (now : Int) (st : ChatState) (chatData : ChatData)
    (hdoc : st.chatDoc = some (some chatData))
    (hparts : (senderId = chatData.userId1 ∧ receiverId = chatData.userId2) ∨
              (senderId = chatData.userId2 ∧ receiverId = chatData.userId1))
    (hdistinct : chatData.userId1 ≠ chatData.userId2) :
    (∃ updated : ChatData,
      sendMessage chatId senderId receiverId text newId now st =
        .ok { chatDoc := some (some updated)
              messages := st.messages ++
                [⟨newId, chatId, senderId, receiverId, text, some now, false⟩] } ∧
      updated.userId1 = chatData.userId1 ∧
      updated.userId2 = chatData.userId2 ∧
      updated.lastMessage = some text ∧
      updated.lastMessageTime = some now ∧
      unreadCountOf updated receiverId =
        some ((unreadCountOf chatData receiverId).getD 0 + 1) ∧
      unreadCountOf updated senderId = unreadCountOf chatData senderId) ∧
    (∀ st2 : ChatState, ∀ e : String,
      sendMessage chatId senderId receiverId text newId now st2 = .error e →
      applySendMessage chatId senderId receiverId text newId now st2 = st2) := by
  constructor
  · rcases hparts with ⟨hs, hr⟩ | ⟨hs, hr⟩
    · refine ⟨{ chatData with
          lastMessage := some text
          lastMessageTime := some now
          unreadCount2 := some (chatData.unreadCount2.getD 0 + 1) }, ?_, ?_, ?_, ?_, ?_, ?_, ?_⟩
      · simp [sendMessage, hdoc, hs]
      · rfl
      · rfl
      · rfl
      · rfl
      · have hrne : receiverId ≠ chatData.userId1 := by
          rw [hr]; exact fun h => hdistinct h.symm
        simp [unreadCountOf, hrne]
      · rw [hs]
        simp [unreadCountOf]
    · have hsne : chatData.userId1 ≠ senderId := by
        rw [hs]; exact hdistinct
      refine ⟨{ chatData with
          lastMessage := some text
          lastMessageTime := some now
          unreadCount1 := some (chatData.unreadCount1.getD 0 + 1) }, ?_, ?_, ?_, ?_, ?_, ?_, ?_⟩
      · simp [sendMessage, hdoc, hsne]
      · rfl
      · rfl
      · rfl
      · rfl
      · rw [hr]
        simp [unreadCountOf]
      · have hsne2 : senderId ≠ chatData.userId1 := fun h => hsne h.symm
        simp [unreadCountOf, hsne2]
  · intro st2 e herr
    unfold applySendMessage
    rw [herr]

/-- Witness for C3: a concrete send on an existing two-party chat. -/
theorem sendMessage_atomic_witness :
    (({ chatDoc := some (some ⟨"U1", "U2", none, none, some 0, some 0⟩)
        messages := [] } : ChatState).chatDoc =
      some (some (⟨"U1", "U2", none, none, some 0, some 0⟩ : ChatData))) ∧
    (("U1" = "U1" ∧ "U2" = "U2") ∨ ("U1" = "U2" ∧ "U2" = "U1")) ∧
    ("U1" ≠ "U2") ∧
    ((∃ updated : ChatData,
      sendMessage "c1" "U1" "U2" "hi" "m1" 42
          { chatDoc := some (some ⟨"U1", "U2", none, none, some 0, some 0⟩)
            messages := [] } =
        .ok { chatDoc := some (some updated)
              messages := ([] : List MessageDoc) ++
                [⟨"m1", "c1", "U1", "U2", "hi", some 42, false⟩] } ∧
      updated.userId1 = "U1" ∧
      updated.userId2 = "U2" ∧
      updated.lastMessage = some "hi" ∧
      updated.lastMessageTime = some 42 ∧
      unreadCountOf updated "U2" =
        some ((unreadCountOf ⟨"U1", "U2", none, none, some 0, some 0⟩ "U2").getD 0 + 1) ∧
      unreadCountOf updated "U1" =
        unreadCountOf ⟨"U1", "U2", none, none, some 0, some 0⟩ "U1") ∧
    (∀ st2 : ChatState, ∀ e : String,
      sendMessage "c1" "U1" "U2" "hi" "m1" 42 st2 = .error e →
      applySendMessage "c1" "U1" "U2" "hi" "m1" 42 st2 = st2)) :=
  ⟨rfl, Or.inl ⟨rfl, rfl⟩, by decide,
    sendMessage_atomic "c1" "U1" "U2" "hi" "m1" 42
      { chatDoc := some (some ⟨"U1", "U2", none, none, some 0, some 0⟩)
        messages := [] }
      ⟨"U1", "U2", none, none, some 0, some 0⟩ rfl (Or.inl ⟨rfl, rfl⟩) (by decide)⟩

/-- C10: when the chat document is missing or has null data, sendMessage
rejects with an error and the state is unchanged: no message is appended and
no chat metadata is touched. -/
theorem sendMessage_missing_chat_no_writes
    (chatId senderId receiverId text newId : String) (now : Int) (st : ChatState)
    (hmissing : st.chatDoc = none ∨ st.chatDoc = some none) :
    (∃ e, sendMessage chatId senderId receiverId text newId now st = .error e) ∧
    applySendMessage chatId senderId receiverId text newId now st = st := by
  rcases hmissing with h | h
  · exact ⟨⟨"Chat does not exist", by simp [sendMessage, h]⟩,
      by simp [applySendMessage, sendMessage, h]⟩
  · exact ⟨⟨"Chat data is null", by simp [sendMessage, h]⟩,
      by simp [applySendMessage, sendMessage, h]⟩

/-- Witness for C10: sending into an absent chat document fails and writes
nothing. -/
theorem sendMessage_missing_chat_no_writes_witness :
    (({ chatDoc := none, messages := [] } : ChatState).chatDoc = none ∨
      ({ chatDoc := none, messages := [] } : ChatState).chatDoc = some none) ∧
    ((∃ e, sendMessage "c1" "U1" "U2" "hi" "m1" 42
        { chatDoc := none, messages := [] } = .error e) ∧
    applySendMessage "c1" "U1" "U2" "hi" "m1" 42
        { chatDoc := none, messages := [] } =
      { chatDoc := none, messages := [] }) :=
  ⟨Or.inl rfl,
    sendMessage_missing_chat_no_writes "c1" "U1" "U2" "hi" "m1" 42 _ (Or.inl rfl)⟩

theorem contains_unreadMessageIds_of {userId : String} {msgs : List MessageDoc}
    {m : MessageDoc} (hm : m ∈ msgs) (hrecv : m.receiverId = userId)
    (hunread : m.read = false) :
    (unreadMessageIds userId msgs).contains m.id = true := by
  apply List.elem_iff.mpr
  exact List.mem_map.mpr ⟨m, List.mem_filter.mpr ⟨hm, by simp [hrecv, hunread]⟩, rfl⟩

theorem contains_unreadMessageIds_iff (userId : String) {msgs : List MessageDoc}
    {m : MessageDoc} (hids : (msgs.map MessageDoc.id).Nodup) (hm : m ∈ msgs) :
    (unreadMessageIds userId msgs).contains m.id = true ↔
      (m.receiverId = userId ∧ m.read = false) := by
  constructor
  · intro hc
    rcases List.mem_map.mp (List.elem_iff.mp hc) with ⟨m', hm'f, hid⟩
    rcases List.mem_filter.mp hm'f with ⟨hm'mem, hpred⟩
    have heq : m' = m := List.inj_on_of_nodup_map hids hm'mem hm hid
    subst heq
    simpa using hpred
  · rintro ⟨h1, h2⟩
    exact contains_unreadMessageIds_of hm h1 h2

theorem markMessagesAsRead_no_unread (userId : String) (st : ChatState) :
    ∀ m ∈ (markMessagesAsRead userId st).messages,
      m.receiverId = userId → m.read = true := by
  intro m hm
  simp only [markMessagesAsRead, List.mem_map] at hm
  rcases hm with ⟨m0, hm0, rfl⟩
  by_cases hc : (unreadMessageIds userId st.messages).contains m0.id = true
  · intro _
    rw [if_pos hc]
  · intro hrecv
    rw [if_neg hc] at hrecv ⊢
    cases hread : m0.read
    · exact absurd (contains_unreadMessageIds_of hm0 hrecv hread) hc
    · rfl

theorem markMessagesAsRead_idem (userId : String) (st : ChatState) :
    markMessagesAsRead userId (markMessagesAsRead userId st) =
      markMessagesAsRead userId st := by
  have hfilter : (markMessagesAsRead userId st).messages.filter
      (fun m => m.receiverId == userId && m.read == false) = [] := by
    rw [List.filter_eq_nil_iff]
    intro m hm hpred
    rcases (by simpa using hpred : m.receiverId = userId ∧ m.read = false) with ⟨h1, h2⟩
    have := markMessagesAsRead_no_unread userId st m hm h1
    rw [this] at h2
    simp at h2
  have hunread : unreadMessageIds userId (markMessagesAsRead userId st).messages = [] := by
    unfold unreadMessageIds
    rw [hfilter]
    rfl
  have hmsgs : (markMessagesAsRead userId (markMessagesAsRead userId st)).messages =
      (markMessagesAsRead userId st).messages := by
    conv_lhs => rw [markMessagesAsRead]
    rw [hunread]
    simp
  have hchat : (markMessagesAsRead userId (markMessagesAsRead userId st)).chatDoc =
      (markMessagesAsRead userId st).chatDoc := by
    rcases hd : st.chatDoc with _ | od
    · simp [markMessagesAsRead, hd]
    · rcases od with _ | chatData
      · simp [markMessagesAsRead, hd]
      · by_cases h1 : chatData.userId1 == userId
        · simp [markMessagesAsRead, hd, h1]
        · simp [markMessagesAsRead, hd, h1]
  cases h2 : markMessagesAsRead userId (markMessagesAsRead userId st)
  cases h1 : markMessagesAsRead userId st
  rw [h2, h1] at hmsgs hchat
  simp only at hmsgs hchat
  rw [hmsgs, hchat]

/-- C4: markMessagesAsRead flips `read` on exactly the unread messages
addressed to the reader, leaves every other message untouched, resets the
reader-side unread counter to zero, leaves no unread message for the reader,
and is idempotent (a second invocation changes nothing and processes no
message twice). -/
theorem markMessagesAsRead_correct (userId : String) (st : ChatState)
    (chatData : ChatData) (hdoc : st.chatDoc = some (some chatData))
    (hids : (st.messages.map MessageDoc.id).Nodup) :
    ((markMessagesAsRead userId st).messages = st.messages.map
        (fun m => if m.receiverId = userId ∧ m.read = false then
          { m with read := true } else m)) ∧
    (∀ m ∈ (markMessagesAsRead userId st).messages,
      m.receiverId = userId → m.read = true) ∧
    (∃ chatData2 : ChatData,
      (markMessagesAsRead userId st).chatDoc = some (some chatData2) ∧
      unreadCountOf chatData2 userId = some 0) ∧
    markMessagesAsRead userId (markMessagesAsRead userId st) =
      markMessagesAsRead userId st := by
  refine ⟨?_, markMessagesAsRead_no_unread userId st, ?_,
    markMessagesAsRead_idem userId st⟩
  · simp only [markMessagesAsRead]
    apply List.map_congr_left
    intro m hm
    have hiff := contains_unreadMessageIds_iff userId hids hm
    by_cases hc : m.receiverId = userId ∧ m.read = false
    · rw [if_pos (hiff.mpr hc), if_pos hc]
    · rw [if_neg (fun h => hc (hiff.mp h)), if_neg hc]
  · by_cases h1 : chatData.userId1 == userId
    · refine ⟨{ chatData with unreadCount1 := some 0 }, ?_, ?_⟩
      · simp [markMessagesAsRead, hdoc, h1]
      · have : userId = chatData.userId1 := (eq_of_beq h1).symm
        simp [unreadCountOf, this]
    · refine ⟨{ chatData with unreadCount2 := some 0 }, ?_, ?_⟩
      · simp [markMessagesAsRead, hdoc, h1]
      · have : userId ≠ chatData.userId1 := by
          intro h
          exact h1 (beq_iff_eq.mpr h.symm)
        simp [unreadCountOf, this]

/-- Witness for C4: reading a chat with one unread and one read message. -/
theorem markMessagesAsRead_correct_witness :
    (({ chatDoc := some (some ⟨"U1", "U2", some "hi", some 42, some 1, some 0⟩)
        messages := [⟨"m1", "c1", "U2", "U1", "hi", some 42, false⟩,
                     ⟨"m0", "c1", "U1", "U2", "yo", some 1, true⟩] } : ChatState).chatDoc =
      some (some (⟨"U1", "U2", some "hi", some 42, some 1, some 0⟩ : ChatData))) ∧
    ((([⟨"m1", "c1", "U2", "U1", "hi", some 42, false⟩,
        ⟨"m0", "c1", "U1", "U2", "yo", some 1, true⟩] : List MessageDoc).map
        MessageDoc.id).Nodup) ∧
    (((markMessagesAsRead "U1"
        { chatDoc := some (some ⟨"U1", "U2", some "hi", some 42, some 1, some 0⟩)
          messages := [⟨"m1", "c1", "U2", "U1", "hi", some 42, false⟩,
                       ⟨"m0", "c1", "U1", "U2", "yo", some 1, true⟩] }).messages =
      ([⟨"m1", "c1", "U2", "U1", "hi", some 42, false⟩,
        ⟨"m0", "c1", "U1", "U2", "yo", some 1, true⟩] : List MessageDoc).map
        (fun m => if m.receiverId = "U1" ∧ m.read = false then
          { m with read := true } else m)) ∧
    (∀ m ∈ (markMessagesAsRead "U1"
        { chatDoc := some (some ⟨"U1", "U2", some "hi", some 42, some 1, some 0⟩)
          messages := [⟨"m1", "c1", "U2", "U1", "hi", some 42, false⟩,
                       ⟨"m0", "c1", "U1", "U2", "yo", some 1, true⟩] }).messages,
      m.receiverId = "U1" → m.read = true) ∧
    (∃ chatData2 : ChatData,
      (markMessagesAsRead "U1"
        { chatDoc := some (some ⟨"U1", "U2", some "hi", some 42, some 1, some 0⟩)
          messages := [⟨"m1", "c1", "U2", "U1", "hi", some 42, false⟩,
                       ⟨"m0", "c1", "U1", "U2", "yo", some 1, true⟩] }).chatDoc =
        some (some chatData2) ∧
      unreadCountOf chatData2 "U1" = some 0) ∧
    markMessagesAsRead "U1" (markMessagesAsRead "U1"
        { chatDoc := some (some ⟨"U1", "U2", some "hi", some 42, some 1, some 0⟩)
          messages := [⟨"m1", "c1", "U2", "U1", "hi", some 42, false⟩,
                       ⟨"m0", "c1", "U1", "U2", "yo", some 1, true⟩] }) =
      markMessagesAsRead "U1"
        { chatDoc := some (some ⟨"U1", "U2", some "hi", some 42, some 1, some 0⟩)
          messages := [⟨"m1", "c1", "U2", "U1", "hi", some 42, false⟩,
                       ⟨"m0", "c1", "U1", "U2", "yo", some 1, true⟩] }) :=
  ⟨rfl, by decide,
    markMessagesAsRead_correct "U1"
      { chatDoc := some (some ⟨"U1", "U2", some "hi", some 42, some 1, some 0⟩)
        messages := [⟨"m1", "c1", "U2", "U1", "hi", some 42, false⟩,
                     ⟨"m0", "c1", "U1", "U2", "yo", some 1, true⟩] }
      ⟨"U1", "U2", some "hi", some 42, some 1, some 0⟩ rfl (by decide)⟩

theorem findMutual_eq_none_iff (likerUserId : String) (userAnimalIds : List String)
    (ls : List Like) :
    findMutual likerUserId userAnimalIds ls = none ↔
      ∀ l ∈ ls, ¬(l.ownerId = likerUserId ∨ l.likedAnimalId ∈ userAnimalIds) := by
  induction ls with
  | nil => simp [findMutual]
  | cons likeData rest ih =>
    by_cases h1 : likeData.ownerId == likerUserId
    · simp only [findMutual, if_pos h1]
      constructor
      · intro h
        exact absurd h (by simp)
      · intro h
        exact absurd (Or.inl (eq_of_beq h1)) (h likeData (by simp))
    · by_cases h2 : userAnimalIds.contains likeData.likedAnimalId
      · simp only [findMutual, if_neg h1, if_pos h2]
        constructor
        · intro h
          exact absurd h (by simp)
        · intro h
          exact absurd (Or.inr (List.elem_iff.mp h2)) (h likeData (by simp))
      · simp only [findMutual, if_neg h1, if_neg h2]
        rw [ih]
        constructor
        · intro h l hl
          rcases List.mem_cons.mp hl with rfl | hl2
          · rintro (heq | hmem)
            · exact h1 (beq_iff_eq.mpr heq)
            · exact h2 (List.elem_iff.mpr hmem)
          · exact h l hl2
        · intro h l hl
          exact h l (List.mem_cons_of_mem _ hl)

theorem checkMutualLike_isMatch_iff (likes : List Like)
    (likerUserId ownerId : String) (userAnimals : List Animal) :
    (checkMutualLike likes likerUserId ownerId userAnimals).isMatch = true ↔
      findMutual likerUserId (userAnimals.map (fun a => a.id))
        (likes.filter (fun l => l.likerUserId == ownerId)) ≠ none := by
  rcases hfind : findMutual likerUserId (userAnimals.map (fun a => a.id))
      (likes.filter (fun l => l.likerUserId == ownerId)) with _ | aid <;>
    simp [checkMutualLike, hfind]

/-- C9: after a like by U on a pet of O, the mutual-like check scans all like
edges whose liker is O and reports a match exactly when one of them targets
a pet owned by U; matching is profile-level, independent of the particular
pets, provided the like edges record the true owner of the liked animal for
the animals in the current user list. -/
theorem checkMutualLike_profile_level (likes : List Like)
    (likerUserId ownerId : String) (userAnimals : List Animal)
    (hconsist : ∀ l ∈ likes, l.likerUserId = ownerId →
      l.likedAnimalId ∈ userAnimals.map Animal.id → l.ownerId = likerUserId) :
    (checkMutualLike likes likerUserId ownerId userAnimals).isMatch = true ↔
      ∃ l ∈ likes, l.likerUserId = ownerId ∧ l.ownerId = likerUserId := by
  rw [checkMutualLike_isMatch_iff, Ne, findMutual_eq_none_iff]
  push_neg
  constructor
  · rintro ⟨l, hl, hcond⟩
    rcases List.mem_filter.mp hl with ⟨hlmem, hlk⟩
    have hliker : l.likerUserId = ownerId := eq_of_beq hlk
    refine ⟨l, hlmem, hliker, ?_⟩
    rcases hcond with howner | hanim
    · exact howner
    · exact hconsist l hlmem hliker (by simpa using hanim)
  · rintro ⟨l, hl, hliker, howner⟩
    exact ⟨l, List.mem_filter.mpr ⟨hl, beq_iff_eq.mpr hliker⟩, Or.inl howner⟩

/-- Witness for C9, scenario B: U2 already liked the animal a1 owned by U1;
when U1 likes an animal of U2, the check reports a mutual match. -/
theorem checkMutualLike_profile_level_witness :
    (∀ l ∈ ([⟨"L1", "U2", "a1", "U1", 3⟩] : List Like), l.likerUserId = "U2" →
      l.likedAnimalId ∈ ([⟨"a1", "Rex", "dog", 2, "mix", "", "", "U1"⟩] :
        List Animal).map Animal.id → l.ownerId = "U1") ∧
    ((checkMutualLike [⟨"L1", "U2", "a1", "U1", 3⟩] "U1" "U2"
        [⟨"a1", "Rex", "dog", 2, "mix", "", "", "U1"⟩]).isMatch = true ↔
      ∃ l ∈ ([⟨"L1", "U2", "a1", "U1", 3⟩] : List Like),
        l.likerUserId = "U2" ∧ l.ownerId = "U1") :=
  ⟨by decide, checkMutualLike_profile_level _ _ _ _ (by decide)⟩

/-- Counterexample to C1 as stated: saveMatch is a plain `add` with an
auto-generated document id, so when the race makes both sides detect the
mutual like and save, the unordered pair (U1, U2) ends up with two MatchEdge
documents, not at most one. -/
theorem saveMatch_race_counterexample :
    (matchesForPair
      (saveMatch (saveMatch emptyMatches "U1" "U2" "a1" none "a2" none 5)
        "U2" "U1" "a2" none "a1" none 6) "U1" "U2").length = 2 := by decide

/-- C1 amended: saveMatch unconditionally appends one new match document
under a fresh auto-generated id; it is not keyed by the sorted profile pair
and performs no create-if-absent, so two save calls for the same unordered
pair (the concurrent mutual-like race) leave two MatchEdge documents. -/
theorem saveMatch_appends_unconditionally (c : MatchesCollection)
    (u o a1 : String) (v1 : Option Animal) (a2 : String) (v2 : Option Animal)
    (t1 : Int) (b1 : String) (w1 : Option Animal) (b2 : String)
    (w2 : Option Animal) (t2 : Int) :
    (saveMatch c u o a1 v1 a2 v2 t1).docs =
      c.docs ++ [⟨c.nextId, u, o, a1, v1, a2, v2, t1⟩] ∧
    (matchesForPair
        (saveMatch (saveMatch c u o a1 v1 a2 v2 t1) o u b1 w1 b2 w2 t2)
        u o).length =
      (matchesForPair c u o).length + 2 := by
  refine ⟨rfl, ?_⟩
  unfold saveMatch matchesForPair
  simp

theorem jsMapFold_nodup {α : Type} (l : List (String × α)) :
    ∀ acc : List (String × α), ((acc ++ l).map Prod.fst).Nodup →
    l.foldl (fun m p => jsMapUpsert m p.1 p.2) acc = acc ++ l := by
  induction l with
  | nil => intro acc _; simp
  | cons p rest ih =>
    intro acc h
    have hnotin : ¬ acc.any (fun q => q.1 == p.1) = true := by
      intro hany
      rcases List.any_eq_true.mp hany with ⟨q, hq, hbeq⟩
      have hnodup : (acc.map Prod.fst ++ (p :: rest).map Prod.fst).Nodup := by
        simpa using h
      have hdisj := (List.nodup_append.mp hnodup).2.2
      exact hdisj (List.mem_map.mpr ⟨q, hq, eq_of_beq hbeq⟩) (by simp)
    have hstep : jsMapUpsert acc p.1 p.2 = acc ++ [p] := by
      unfold jsMapUpsert
      rw [if_neg hnotin]
    rw [List.foldl_cons, hstep, ih (acc ++ [p]) (by simpa using h)]
    simp

theorem jsMapOfList_eq_self {α : Type} (l : List (String × α))
    (h : (l.map Prod.fst).Nodup) : jsMapOfList l = l := by
  have := jsMapFold_nodup l [] (by simpa using h)
  simpa [jsMapOfList] using this

/-- C7: for a profile that is side 1 of two chat documents and side 2 of one
other, the merged list delivered by getUserChats has length three and no
duplicated thread id. -/
theorem getUserChats_merged_thread_list (userId : String)
    (chats : List ChatDocRecord) (users : String → Option User)
    (hids : (chats.map ChatDocRecord.id).Nodup)
    (h1 : (chats.filter (fun c => c.data.userId1 == userId)).length = 2)
    (h2 : (chats.filter (fun c => c.data.userId2 == userId)).length = 1)
    (hdisj : ∀ c ∈ chats, ¬(c.data.userId1 = userId ∧ c.data.userId2 = userId)) :
    (getUserChatsList userId chats users).length = 3 ∧
    ((getUserChatsList userId chats users).map ChatView.id).Nodup := by
  have hq1 : ((chats.filter (fun c => c.data.userId1 == userId)).map
      ChatDocRecord.id).Nodup :=
    hids.sublist (List.Sublist.map _ (List.filter_sublist _))
  have hq2 : ((chats.filter (fun c => c.data.userId2 == userId)).map
      ChatDocRecord.id).Nodup :=
    hids.sublist (List.Sublist.map _ (List.filter_sublist _))
  have hdisjids : ∀ a, a ∈ (chats.filter (fun c => c.data.userId1 == userId)).map
      ChatDocRecord.id →
      a ∈ (chats.filter (fun c => c.data.userId2 == userId)).map
        ChatDocRecord.id → False := by
    intro a ha1 ha2
    rcases List.mem_map.mp ha1 with ⟨c1, hc1, rfl⟩
    rcases List.mem_map.mp ha2 with ⟨c2, hc2, heq⟩
    rcases List.mem_filter.mp hc1 with ⟨hc1m, hp1⟩
    rcases List.mem_filter.mp hc2 with ⟨hc2m, hp2⟩
    have heqc : c2 = c1 := List.inj_on_of_nodup_map hids hc2m hc1m heq
    subst heqc
    exact hdisj c2 hc2m ⟨eq_of_beq hp1, eq_of_beq hp2⟩
  have hkeysAll : (((chats.filter (fun c => c.data.userId1 == userId)).map
        toChatView ++
      (chats.filter (fun c => c.data.userId2 == userId)).map toChatView).map
        ChatView.id) =
      (chats.filter (fun c => c.data.userId1 == userId)).map ChatDocRecord.id ++
      (chats.filter (fun c => c.data.userId2 == userId)).map ChatDocRecord.id := by
    rw [List.map_append, List.map_map, List.map_map]
    rfl
  have hallids : (((chats.filter (fun c => c.data.userId1 == userId)).map
        toChatView ++
      (chats.filter (fun c => c.data.userId2 == userId)).map toChatView).map
        ChatView.id).Nodup := by
    rw [hkeysAll]
    exact List.nodup_append.mpr ⟨hq1, hq2, hdisjids⟩
  have hcore : getUserChatsList userId chats users =
      ((((chats.filter (fun c => c.data.userId1 == userId)).map toChatView ++
        (chats.filter (fun c => c.data.userId2 == userId)).map toChatView).map
        (attachOtherUserData userId users)).insertionSort
        (fun a b => chatSortKey b ≤ chatSortKey a)) := by
    unfold getUserChatsList
    rw [jsMapOfList_eq_self _ (by rw [List.map_map]; exact hallids)]
    rw [List.map_map, List.map_map]
    rfl
  have hperm := List.perm_insertionSort
    (fun a b => chatSortKey b ≤ chatSortKey a)
    ((((chats.filter (fun c => c.data.userId1 == userId)).map toChatView ++
      (chats.filter (fun c => c.data.userId2 == userId)).map toChatView).map
      (attachOtherUserData userId users)))
  constructor
  · rw [hcore, hperm.length_eq]
    simp [h1, h2]
  · rw [hcore]
    have hmap := hperm.map ChatView.id
    rw [List.Perm.nodup_iff hmap]
    rw [List.map_map]
    exact hallids

/-- Witness for C7, scenario C: profile U is side 1 in threads t1 and t2 and
side 2 in thread t3; the delivered list has length 3 with distinct ids. -/
theorem getUserChats_merged_thread_list_witness :
    (([⟨"t1", ⟨"U", "A", none, some 10, some 0, some 0⟩⟩,
       ⟨"t2", ⟨"U", "B", none, some 20, some 0, some 0⟩⟩,
       ⟨"t3", ⟨"C", "U", none, none, some 0, some 0⟩⟩] :
        List ChatDocRecord).map ChatDocRecord.id).Nodup ∧
    (([⟨"t1", ⟨"U", "A", none, some 10, some 0, some 0⟩⟩,
       ⟨"t2", ⟨"U", "B", none, some 20, some 0, some 0⟩⟩,
       ⟨"t3", ⟨"C", "U", none, none, some 0, some 0⟩⟩] :
        List ChatDocRecord).filter (fun c => c.data.userId1 == "U")).length = 2 ∧
    (([⟨"t1", ⟨"U", "A", none, some 10, some 0, some 0⟩⟩,
       ⟨"t2", ⟨"U", "B", none, some 20, some 0, some 0⟩⟩,
       ⟨"t3", ⟨"C", "U", none, none, some 0, some 0⟩⟩] :
        List ChatDocRecord).filter (fun c => c.data.userId2 == "U")).length = 1 ∧
    ((getUserChatsList "U"
        [⟨"t1", ⟨"U", "A", none, some 10, some 0, some 0⟩⟩,
         ⟨"t2", ⟨"U", "B", none, some 20, some 0, some 0⟩⟩,
         ⟨"t3", ⟨"C", "U", none, none, some 0, some 0⟩⟩]
        (fun _ => none)).length = 3 ∧
      ((getUserChatsList "U"
        [⟨"t1", ⟨"U", "A", none, some 10, some 0, some 0⟩⟩,
         ⟨"t2", ⟨"U", "B", none, some 20, some 0, some 0⟩⟩,
         ⟨"t3", ⟨"C", "U", none, none, some 0, some 0⟩⟩]
        (fun _ => none)).map ChatView.id).Nodup) :=
  ⟨by decide, by decide, by decide,
    getUserChats_merged_thread_list "U"
      [⟨"t1", ⟨"U", "A", none, some 10, some 0, some 0⟩⟩,
       ⟨"t2", ⟨"U", "B", none, some 20, some 0, some 0⟩⟩,
       ⟨"t3", ⟨"C", "U", none, none, some 0, some 0⟩⟩]
      (fun _ => none) (by decide) (by decide) (by decide) (by decide)⟩

theorem mapGet_cons {α : Type} (p : String × α) (m : List (String × α))
    (id : String) :
    mapGet (p :: m) id = if p.1 == id then some p.2 else mapGet m id := by
  by_cases h : (p.1 == id) = true
  · simp [mapGet, List.find?_cons, h]
  · simp only [Bool.not_eq_true] at h
    simp [mapGet, List.find?_cons, h]

theorem mapGet_mapSubst {α : Type} (k : String) (v : α) (id : String) :
    ∀ m : List (String × α),
    mapGet (m.map (fun p => if p.1 == k then (k, v) else p)) id =
      if id = k then (if m.any (fun p => p.1 == k) then some v else none)
      else mapGet m id := by
  intro m
  induction m with
  | nil =>
    by_cases hid : id = k <;> simp [mapGet, hid]
  | cons p rest ih =>
    rw [List.map_cons, mapGet_cons, mapGet_cons]
    by_cases hpk : (p.1 == k) = true
    · simp only [if_pos hpk]
      by_cases hid : id = k
      · subst hid
        simp [List.any_cons, hpk]
      · have hkid : (k == id) = false := by
          rw [beq_eq_false_iff_ne]
          exact fun h => hid h.symm
        have hpid : (p.1 == id) = false := by
          rw [beq_eq_false_iff_ne]
          intro h
          exact hid ((eq_of_beq hpk).symm.trans h).symm
        simp only [hkid, if_false, Bool.false_eq_true, ih, if_neg hid, hpid]
    · simp only [Bool.not_eq_true] at hpk
      simp only [hpk, Bool.false_eq_true, if_false]
      by_cases hpid : (p.1 == id) = true
      · have hid : id ≠ k := by
          intro h
          subst h
          rw [beq_iff_eq] at hpid
          rw [hpid] at hpk
          simp at hpk
        simp only [hpid, if_true, if_neg hid]
      · simp only [Bool.not_eq_true] at hpid
        simp only [hpid, Bool.false_eq_true, if_false, ih]
        by_cases hid : id = k
        · subst hid
          rw [List.any_cons, hpk, Bool.false_or]
        · simp [hid]

theorem mapGet_append_new {α : Type} (k : String) (v : α) (id : String) :
    ∀ m : List (String × α), m.any (fun p => p.1 == k) = false →
    mapGet (m ++ [(k, v)]) id = if id = k then some v else mapGet m id := by
  intro m
  induction m with
  | nil =>
    intro _
    by_cases hid : id = k
    · subst hid
      simp [mapGet, List.find?]
    · have hkid : (k == id) = false := by
        rw [beq_eq_false_iff_ne]
        exact fun h => hid h.symm
      simp [mapGet, List.find?, hkid, hid]
  | cons p rest ih =>
    intro hany
    rw [List.any_cons, Bool.or_eq_false_iff] at hany
    rw [List.cons_append, mapGet_cons, mapGet_cons]
    by_cases hpid : (p.1 == id) = true
    · have hid : id ≠ k := by
        intro h
        subst h
        rw [beq_iff_eq] at hpid
        rw [hpid] at hany
        simp at hany
      rw [if_pos hpid, if_neg hid, if_pos hpid]
    · rw [if_neg hpid, if_neg hpid, ih hany.2]

theorem mapGet_jsMapUpsert {α : Type} (m : List (String × α)) (k : String)
    (v : α) (id : String) :
    mapGet (jsMapUpsert m k v) id = if id = k then some v else mapGet m id := by
  unfold jsMapUpsert
  by_cases hany : m.any (fun p => p.1 == k) = true
  · rw [if_pos hany, mapGet_mapSubst]
    by_cases hid : id = k
    · rw [if_pos hid, if_pos hid, if_pos hany]
    · rw [if_neg hid, if_neg hid]
  · simp only [Bool.not_eq_true] at hany
    rw [if_neg (by simp [hany]), mapGet_append_new k v id m hany]

theorem mapGet_jsMapDelete {α : Type} (k id : String) :
    ∀ m : List (String × α),
    mapGet (jsMapDelete m k) id = if id = k then none else mapGet m id := by
  intro m
  induction m with
  | nil => by_cases hid : id = k <;> simp [jsMapDelete, mapGet, hid]
  | cons p rest ih =>
    unfold jsMapDelete
    rw [List.filter_cons]
    by_cases hpk : (p.1 != k) = true
    · rw [if_pos hpk, mapGet_cons]
      by_cases hpid : (p.1 == id) = true
      · have hid : id ≠ k := by
          intro h
          subst h
          rw [beq_iff_eq] at hpid
          rw [bne_iff_ne] at hpk
          exact hpk hpid
        rw [if_pos hpid, if_neg hid, mapGet_cons, if_pos hpid]
      · rw [if_neg hpid]
        unfold jsMapDelete at ih
        rw [ih, mapGet_cons]
        by_cases hid : id = k
        · rw [if_pos hid, if_pos hid]
        · rw [if_neg hid, if_neg hid, if_neg hpid]
    · rw [if_neg hpk]
      unfold jsMapDelete at ih
      rw [ih, mapGet_cons]
      have hpkeq : p.1 = k := by
        rw [Bool.not_eq_true, bne_eq_false_iff_eq] at hpk
        exact hpk
      by_cases hid : id = k
      · rw [if_pos hid, if_pos hid]
      · have hpid : (p.1 == id) = false := by
          rw [beq_eq_false_iff_ne, hpkeq]
          exact fun h => hid h.symm
        rw [if_neg hid, if_neg hid, if_neg (by simp [hpid])]

theorem mapGet_applyChange (now : Int) (m : List (String × MatchView))
    (c : DocChange) (id : String) :
    mapGet (applyChange now m c) id = changeStep now id c (mapGet m id) := by
  by_cases hid : c.doc.id = id
  · by_cases hr : c.removed = true <;>
      simp [applyChange, changeStep, hr, mapGet_jsMapDelete, mapGet_jsMapUpsert,
        hid]
  · have hid2 : id ≠ c.doc.id := fun h => hid h.symm
    by_cases hr : c.removed = true <;>
      simp [applyChange, changeStep, hr, mapGet_jsMapDelete, mapGet_jsMapUpsert,
        hid, hid2]

theorem changesGet_cons (now : Int) (id : String) (c : DocChange)
    (rest : List DocChange) (cur : Option MatchView) :
    changesGet now id (c :: rest) cur =
      changesGet now id rest (changeStep now id c cur) := rfl

theorem mapGet_applyChanges (now : Int) (chs : List DocChange) :
    ∀ (m : List (String × MatchView)) (id : String),
    mapGet (applyChanges now m chs) id = changesGet now id chs (mapGet m id) := by
  induction chs with
  | nil => intro m id; rfl
  | cons c rest ih =>
    intro m id
    rw [changesGet_cons, ← mapGet_applyChange now m c id]
    exact ih (applyChange now m c) id

theorem changesGet_untouched (now : Int) (id : String) :
    ∀ chs : List DocChange, touchedByChanges id chs = false →
    ∀ cur, changesGet now id chs cur = cur := by
  intro chs
  induction chs with
  | nil => intro _ cur; rfl
  | cons c rest ih =>
    intro h cur
    rw [touchedByChanges, List.any_cons, Bool.or_eq_false_iff] at h
    rw [changesGet_cons]
    have hstep : changeStep now id c cur = cur := by
      unfold changeStep
      rw [if_neg]
      intro heq
      have h1 := h.1
      rw [beq_eq_false_iff_ne] at h1
      exact h1 heq
    rw [hstep]
    exact ih h.2 cur

theorem changesGet_const (now : Int) (id : String) :
    ∀ chs : List DocChange, touchedByChanges id chs = true →
    ∀ c1 c2, changesGet now id chs c1 = changesGet now id chs c2 := by
  intro chs
  induction chs with
  | nil => intro h; simp [touchedByChanges] at h
  | cons c rest ih =>
    intro h c1 c2
    rw [changesGet_cons, changesGet_cons]
    by_cases htr : touchedByChanges id rest = true
    · exact ih htr _ _
    · have hc : (c.doc.id == id) = true := by
        rw [touchedByChanges, List.any_cons, Bool.or_eq_true] at h
        rcases h with h1 | h2
        · exact h1
        · exact absurd h2 htr
      have heq : changeStep now id c c1 = changeStep now id c c2 := by
        unfold changeStep
        rw [if_pos (eq_of_beq hc), if_pos (eq_of_beq hc)]
      rw [heq]

theorem isFirstLoadOf_handleSnapshot_false (u : String) (now : Int)
    (s : MergeState) (e : SnapshotEvent) (r : QueryRole)
    (h : isFirstLoadOf s r = false) :
    isFirstLoadOf (handleSnapshot u now s e) r = false := by
  cases r <;> cases he : e.role <;>
    simp_all [handleSnapshot, isFirstLoadOf, he]

theorem isFirstLoadOf_handleSnapshot_self (u : String) (now : Int)
    (s : MergeState) (e : SnapshotEvent) :
    isFirstLoadOf (handleSnapshot u now s e) e.role = false := by
  cases he : e.role <;> simp [handleSnapshot, isFirstLoadOf, he]

theorem replay_flag_false (u : String) (now : Int) (evs : List SnapshotEvent) :
    ∀ (s : MergeState) (r : QueryRole), isFirstLoadOf s r = false →
    isFirstLoadOf (replayEvents u now s evs) r = false := by
  induction evs with
  | nil => intro s r h; exact h
  | cons e rest ih =>
    intro s r h
    exact ih _ r (isFirstLoadOf_handleSnapshot_false u now s e r h)

theorem replay_flag_of_mem (u : String) (now : Int) (evs : List SnapshotEvent) :
    ∀ (s : MergeState) (e : SnapshotEvent), e ∈ evs →
    isFirstLoadOf (replayEvents u now s evs) e.role = false := by
  induction evs with
  | nil => intro s e h; cases h
  | cons e2 rest ih =>
    intro s e h
    rcases List.mem_cons.mp h with rfl | h2
    · exact replay_flag_false u now rest _ _
        (isFirstLoadOf_handleSnapshot_self u now s e)
    · exact ih _ e h2

theorem mem_jsMapUpsert {α : Type} {m : List (String × α)} {k : String} {v : α}
    {p : String × α} (h : p ∈ jsMapUpsert m k v) : p ∈ m ∨ p = (k, v) := by
  unfold jsMapUpsert at h
  by_cases hany : (m.any (fun q => q.1 == k)) = true
  · rw [if_pos hany] at h
    rcases List.mem_map.mp h with ⟨q, hq, heq⟩
    by_cases hqk : (q.1 == k) = true
    · right
      rw [← heq, if_pos hqk]
    · left
      rw [← heq, if_neg hqk]
      exact hq
  · rw [if_neg hany] at h
    rcases List.mem_append.mp h with h1 | h2
    · exact Or.inl h1
    · exact Or.inr (by simpa using h2)

theorem mem_applySnapshotDocs {now : Int} (docs : List MatchDocData) :
    ∀ (m : List (String × MatchView)) (p : String × MatchView),
      p ∈ applySnapshotDocs now m docs →
      p ∈ m ∨ ∃ d ∈ docs, p = (d.id, toMatchView now d) := by
  induction docs with
  | nil => intro m p h; exact Or.inl h
  | cons d rest ih =>
    intro m p h
    have h2 := ih (jsMapUpsert m d.id (toMatchView now d)) p h
    rcases h2 with h3 | ⟨d2, hd2, he⟩
    · rcases mem_jsMapUpsert h3 with h4 | h4
      · exact Or.inl h4
      · exact Or.inr ⟨d, by simp, h4⟩
    · exact Or.inr ⟨d2, List.mem_cons_of_mem _ hd2, he⟩

theorem mem_applyChanges {now : Int} (chs : List DocChange) :
    ∀ (m : List (String × MatchView)) (p : String × MatchView),
      p ∈ applyChanges now m chs →
      p ∈ m ∨ ∃ c ∈ chs, p = (c.doc.id, toMatchView now c.doc) := by
  induction chs with
  | nil => intro m p h; exact Or.inl h
  | cons c rest ih =>
    intro m p h
    have h2 := ih (applyChange now m c) p h
    rcases h2 with h3 | ⟨c2, hc2, he⟩
    · unfold applyChange at h3
      by_cases hr : c.removed = true
      · rw [if_pos hr] at h3
        exact Or.inl (List.mem_of_mem_filter h3)
      · rw [if_neg hr] at h3
        rcases mem_jsMapUpsert h3 with h4 | h4
        · exact Or.inl h4
        · exact Or.inr ⟨c, by simp, h4⟩
    · exact Or.inr ⟨c2, List.mem_cons_of_mem _ hc2, he⟩

theorem handleSnapshot_matchesMap (u : String) (now : Int) (s : MergeState)
    (e : SnapshotEvent) :
    (handleSnapshot u now s e).matchesMap =
      if isFirstLoadOf s e.role then
        (applySnapshotDocs now s.matchesMap e.docs).filter
          (fun p => !(roleFieldView e.role p.2 == u &&
            !(e.docs.map MatchDocData.id).contains p.1))
      else applyChanges now s.matchesMap e.changes := by
  cases he : e.role <;> simp [handleSnapshot, he]

theorem mergeInv_initial (u : String) : mergeInv u initialMergeState := by
  intro r _ p hp
  cases hp

theorem mergeInv_handleSnapshot (u : String) (now : Int) (s : MergeState)
    (e : SnapshotEvent) (hinv : mergeInv u s) (hwf : wfEvent u now e) :
    mergeInv u (handleSnapshot u now s e) := by
  intro r hr p hp
  have hrne : r ≠ e.role := by
    intro h
    subst h
    rw [isFirstLoadOf_handleSnapshot_self u now s e] at hr
    cases hr
  have hrbefore : isFirstLoadOf s r = true := by
    by_contra hb
    rw [Bool.not_eq_true] at hb
    rw [isFirstLoadOf_handleSnapshot_false u now s e r hb] at hr
    cases hr
  have hrother : r = otherRole e.role := by
    rcases her : e.role with _ | _ <;> cases r <;> simp_all [otherRole]
  rw [handleSnapshot_matchesMap] at hp
  by_cases hfl : isFirstLoadOf s e.role = true
  · rw [if_pos hfl] at hp
    have hp2 := List.mem_of_mem_filter hp
    rcases mem_applySnapshotDocs e.docs s.matchesMap p hp2 with h1 | ⟨d, hd, he2⟩
    · exact hinv r hrbefore p h1
    · subst he2
      rw [hrother]
      exact (hwf.1 d hd).2
  · rw [if_neg hfl] at hp
    rcases mem_applyChanges e.changes s.matchesMap p hp with h1 | ⟨c, hc, he2⟩
    · exact hinv r hrbefore p h1
    · subst he2
      rw [hrother]
      exact (hwf.2 c hc).2

theorem mergeInv_replay (u : String) (now : Int) (evs : List SnapshotEvent) :
    ∀ s : MergeState, mergeInv u s → (∀ e ∈ evs, wfEvent u now e) →
    mergeInv u (replayEvents u now s evs) := by
  induction evs with
  | nil => intro s hinv _; exact hinv
  | cons e rest ih =>
    intro s hinv hwf
    exact ih _ (mergeInv_handleSnapshot u now s e hinv (hwf e (by simp)))
      (fun e2 he2 => hwf e2 (List.mem_cons_of_mem _ he2))

theorem handleSnapshot_firstLoad_eq_changes (u : String) (now : Int)
    (s : MergeState) (e : SnapshotEvent)
    (hfl : isFirstLoadOf s e.role = true)
    (hal : alignedEvent e) (hinv : mergeInv u s) :
    (handleSnapshot u now s e).matchesMap =
      applyChanges now s.matchesMap e.changes := by
  rw [handleSnapshot_matchesMap, if_pos hfl]
  have hfilter : (applySnapshotDocs now s.matchesMap e.docs).filter
      (fun p => !(roleFieldView e.role p.2 == u &&
        !(e.docs.map MatchDocData.id).contains p.1)) =
      applySnapshotDocs now s.matchesMap e.docs := by
    apply List.filter_eq_self.mpr
    intro p hp
    rcases mem_applySnapshotDocs e.docs s.matchesMap p hp with h1 | ⟨d, hd, he2⟩
    · have hne := hinv e.role hfl p h1
      have hb : (roleFieldView e.role p.2 == u) = false := by
        rw [beq_eq_false_iff_ne]
        exact hne
      simp [hb]
    · subst he2
      simp
      exact Or.inr ⟨d, hd, rfl⟩
  rw [hfilter, hal]
  unfold applyChanges applySnapshotDocs
  rw [List.foldl_map]
  apply List.foldl_ext
  intro m d _
  simp [applyChange]

theorem replay_eq_changesFold (u : String) (now : Int) :
    ∀ (evs : List SnapshotEvent) (s : MergeState), mergeInv u s →
    (∀ e ∈ evs, wfEvent u now e) →
    (∀ r e, isFirstLoadOf s r = true → firstEventOf r evs = some e →
      alignedEvent e) →
    (replayEvents u now s evs).matchesMap =
      evs.foldl (fun m e => applyChanges now m e.changes) s.matchesMap := by
  intro evs
  induction evs with
  | nil => intro s _ _ _; rfl
  | cons e rest ih =>
    intro s hinv hwf hal
    have hwfe : wfEvent u now e := hwf e (by simp)
    have hstep : (handleSnapshot u now s e).matchesMap =
        applyChanges now s.matchesMap e.changes := by
      by_cases hfl : isFirstLoadOf s e.role = true
      · refine handleSnapshot_firstLoad_eq_changes u now s e hfl ?_ hinv
        refine hal e.role e hfl ?_
        unfold firstEventOf
        rw [List.find?_cons_of_pos]
        simp
      · rw [handleSnapshot_matchesMap, if_neg hfl]
    have halrest : ∀ r e2, isFirstLoadOf (handleSnapshot u now s e) r = true →
        firstEventOf r rest = some e2 → alignedEvent e2 := by
      intro r e2 hr hfind
      have hrne : r ≠ e.role := by
        intro h
        subst h
        rw [isFirstLoadOf_handleSnapshot_self u now s e] at hr
        cases hr
      have hrs : isFirstLoadOf s r = true := by
        by_contra hb
        rw [Bool.not_eq_true] at hb
        rw [isFirstLoadOf_handleSnapshot_false u now s e r hb] at hr
        cases hr
      refine hal r e2 hrs ?_
      unfold firstEventOf at hfind ⊢
      rw [List.find?_cons_of_neg]
      · exact hfind
      · simp only [beq_iff_eq]
        exact fun h => hrne h.symm
    have ih2 := ih (handleSnapshot u now s e)
      (mergeInv_handleSnapshot u now s e hinv hwfe)
      (fun e2 he2 => hwf e2 (List.mem_cons_of_mem _ he2))
      halrest
    show (replayEvents u now (handleSnapshot u now s e) rest).matchesMap = _
    rw [ih2, hstep]
    rfl

theorem mapGet_changesFold (now : Int) :
    ∀ (evs : List SnapshotEvent) (m : List (String × MatchView)) (id : String),
    mapGet (evs.foldl (fun m e => applyChanges now m e.changes) m) id =
      evs.foldl (fun cur e => changesGet now id e.changes cur) (mapGet m id) := by
  intro evs
  induction evs with
  | nil => intro m id; rfl
  | cons e rest ih =>
    intro m id
    rw [List.foldl_cons, List.foldl_cons, ih, mapGet_applyChanges]

theorem eventsGet_untouched (now : Int) (id : String) :
    ∀ evs : List SnapshotEvent, touchedByEvents id evs = false →
    ∀ cur, evs.foldl (fun cur e => changesGet now id e.changes cur) cur = cur := by
  intro evs
  induction evs with
  | nil => intro _ cur; rfl
  | cons e rest ih =>
    intro h cur
    rw [touchedByEvents, List.any_cons, Bool.or_eq_false_iff] at h
    rw [List.foldl_cons, changesGet_untouched now id e.changes h.1 cur]
    exact ih h.2 cur

theorem eventsGet_const (now : Int) (id : String) :
    ∀ evs : List SnapshotEvent, touchedByEvents id evs = true →
    ∀ c1 c2, evs.foldl (fun cur e => changesGet now id e.changes cur) c1 =
      evs.foldl (fun cur e => changesGet now id e.changes cur) c2 := by
  intro evs
  induction evs with
  | nil => intro h; simp [touchedByEvents] at h
  | cons e rest ih =>
    intro h c1 c2
    rw [List.foldl_cons, List.foldl_cons]
    by_cases htr : touchedByEvents id rest = true
    · exact ih htr _ _
    · have hc : touchedByChanges id e.changes = true := by
        rw [touchedByEvents, List.any_cons, Bool.or_eq_true] at h
        rcases h with h1 | h2
        · exact h1
        · exact absurd h2 htr
      rw [changesGet_const now id e.changes hc c1 c2]

/-- C6: replaying the identical well-formed sequence of snapshot and diff
events from the two role-keyed subscriptions twice yields the same keyed
matches map as replaying it once.  Well-formed means every delivered
document satisfies the role predicate of its own subscription and not the
other one, and the docChanges of the first snapshot of each role list
exactly its documents as additions, as Firestore guarantees. -/
theorem getUserMatchesRealtime_merge_idempotent (userId : String) (now : Int)
    (evs : List SnapshotEvent)
    (hwf : ∀ e ∈ evs, wfEvent userId now e)
    (hal : ∀ r e, firstEventOf r evs = some e → alignedEvent e) :
    ∀ id : String,
      mapGet (replayEvents userId now
        (replayEvents userId now initialMergeState evs) evs).matchesMap id =
      mapGet (replayEvents userId now initialMergeState evs).matchesMap id := by
  intro id
  have hrun1 : (replayEvents userId now initialMergeState evs).matchesMap =
      evs.foldl (fun m e => applyChanges now m e.changes)
        initialMergeState.matchesMap :=
    replay_eq_changesFold userId now evs initialMergeState
      (mergeInv_initial userId) hwf (fun r e _ hf => hal r e hf)
  have hinv1 : mergeInv userId (replayEvents userId now initialMergeState evs) :=
    mergeInv_replay userId now evs initialMergeState (mergeInv_initial userId) hwf
  have hal1 : ∀ r e, isFirstLoadOf
      (replayEvents userId now initialMergeState evs) r = true →
      firstEventOf r evs = some e → alignedEvent e := by
    intro r e hr hf
    exfalso
    have hf2 : List.find? (fun e2 => e2.role == r) evs = some e := hf
    have hmem : e ∈ evs := List.mem_of_find?_eq_some hf2
    have hbeq := List.find?_some hf2
    have hrole : e.role = r := eq_of_beq hbeq
    have hfalse := replay_flag_of_mem userId now evs initialMergeState e hmem
    rw [hrole, hr] at hfalse
    cases hfalse
  have hrun2 : (replayEvents userId now
      (replayEvents userId now initialMergeState evs) evs).matchesMap =
      evs.foldl (fun m e => applyChanges now m e.changes)
        (replayEvents userId now initialMergeState evs).matchesMap :=
    replay_eq_changesFold userId now evs _ hinv1 hwf hal1
  have hnone : mapGet initialMergeState.matchesMap id = (none : Option MatchView) :=
    rfl
  rw [hrun2, mapGet_changesFold]
  conv_lhs => rw [hrun1, mapGet_changesFold, hnone]
  conv_rhs => rw [hrun1, mapGet_changesFold, hnone]
  by_cases ht : touchedByEvents id evs = true
  · exact eventsGet_const now id evs ht _ _
  · rw [Bool.not_eq_true] at ht
    rw [eventsGet_untouched now id evs ht, eventsGet_untouched now id evs ht]

/-- Witness for C6: replaying the two first snapshots twice leaves the map
entry of each match unchanged. -/
theorem getUserMatchesRealtime_merge_idempotent_witness :
    (∀ e ∈ [sampleEvent1, sampleEvent2], wfEvent "U" 0 e) ∧
    (∀ r e, firstEventOf r [sampleEvent1, sampleEvent2] = some e →
      alignedEvent e) ∧
    mapGet (replayEvents "U" 0 (replayEvents "U" 0 initialMergeState
        [sampleEvent1, sampleEvent2]) [sampleEvent1, sampleEvent2]).matchesMap
        "m1" =
      mapGet (replayEvents "U" 0 initialMergeState
        [sampleEvent1, sampleEvent2]).matchesMap "m1" := by
  have hal : ∀ r e, firstEventOf r [sampleEvent1, sampleEvent2] = some e →
      alignedEvent e := by
    intro r e h
    cases r
    · have h2 : (some sampleEvent1 : Option SnapshotEvent) = some e := h
      have he : e = sampleEvent1 := (Option.some.inj h2).symm
      subst he
      unfold alignedEvent
      decide
    · have h2 : (some sampleEvent2 : Option SnapshotEvent) = some e := h
      have he : e = sampleEvent2 := (Option.some.inj h2).symm
      subst he
      unfold alignedEvent
      decide
  have hwf : ∀ e ∈ [sampleEvent1, sampleEvent2], wfEvent "U" 0 e := by
    intro e he
    rcases List.mem_cons.mp he with rfl | he2
    · unfold wfEvent wfDoc
      decide
    · rcases List.mem_cons.mp he2 with rfl | he3
      · unfold wfEvent wfDoc
        decide
      · cases he3
  exact ⟨hwf, hal,
    getUserMatchesRealtime_merge_idempotent "U" 0 _ hwf hal "m1"⟩
